import Mathlib

/-!
Verification development for the `bevy_animation` crate
(`src/crates/bevy_animation/src/lib.rs`).

Embedding conventions:
* `f32` is modelled by `ℚ`: every claim examined here is about ordering,
  sign logic and exact linear arithmetic, never about rounding.
* `u32` counters are modelled by `Nat` with an explicit `% 2^32` at the
  single place the source increments one (`completions += 1`).
* `Handle<AnimationClip>` is modelled by an asset id (`Nat`); the asset
  store `Assets<AnimationClip>` is modelled as a lookup function
  `Nat → Option AnimationClip` (`get` may miss: "not loaded yet").
* Rust's `%` on floats (remainder with the sign of the dividend) is
  modelled by `rustRem` below, using truncation toward zero.
-/

/-- Truncation of a rational toward zero, the rounding Rust float `%` uses. -/
def qtrunc (q : ℚ) : ℤ :=
  if 0 ≤ q then ⌊q⌋ else ⌈q⌉

/-- Model of Rust's float remainder `a % b`: `a - b * trunc (a / b)`.
`b = 0` gives NaN in Rust; the claims only exercise `b > 0`, the value `0`
chosen here is never reached under their hypotheses. -/
def rustRem (a b : ℚ) : ℚ :=
  if b = 0 then 0 else a - b * (qtrunc (a / b) : ℚ)

/-- `RepeatAnimation` from the source. `Count` carries a `u32`. -/
inductive RepeatAnimation where
  | Never
  | Count (n : Nat)
  | Forever
  deriving DecidableEq

/-- `PlayingAnimation` from the source.  The Rust field `repeat` is named
`repeatMode` here because `repeat` is a Lean keyword. -/
structure PlayingAnimation where
  repeatMode : RepeatAnimation
  speed : ℚ
  elapsed : ℚ
  seek_time : ℚ
  animation_clip : Nat
  completions : Nat
  deriving DecidableEq

/-- `Default for PlayingAnimation`: repeat Never, speed 1.0, zeroed times,
default clip handle (modelled as id 0), zero completions. -/
def PlayingAnimation.defaultValue : PlayingAnimation :=
  { repeatMode := RepeatAnimation.Never
    speed := 1
    elapsed := 0
    seek_time := 0
    animation_clip := 0
    completions := 0 }

/-- `PlayingAnimation::is_finished`. -/
def PlayingAnimation.is_finished (s : PlayingAnimation) : Bool :=
  match s.repeatMode with
  | RepeatAnimation.Forever => false
  | RepeatAnimation.Never => decide (1 ≤ s.completions)
  | RepeatAnimation.Count n => decide (n ≤ s.completions)

/-- `PlayingAnimation::update(delta, clip_duration)`, translated line by
line: early return when finished; advance `elapsed` and `seek_time`;
detect `over_time`/`under_time`; bump `completions` (a `u32`, hence the
`% 2^32`) and return early if that finished the animation; otherwise wrap
`seek_time` by `%=` and then by adding `clip_duration` when negative. -/
def PlayingAnimation.update (s : PlayingAnimation) (delta clip_duration : ℚ) :
    PlayingAnimation :=
  if s.is_finished then s else
  let elapsed := s.elapsed + delta
  let seek_time := s.seek_time + delta * s.speed
  let over_time := decide (0 < s.speed ∧ clip_duration ≤ seek_time)
  let under_time := decide (s.speed < 0 ∧ seek_time < 0)
  let completions :=
    if over_time || under_time then (s.completions + 1) % 4294967296
    else s.completions
  let s1 : PlayingAnimation :=
    { s with elapsed := elapsed, seek_time := seek_time, completions := completions }
  if (over_time || under_time) && s1.is_finished then s1 else
  let seek2 := if clip_duration ≤ seek_time then rustRem seek_time clip_duration else seek_time
  let seek3 := if seek2 < 0 then seek2 + clip_duration else seek2
  { s1 with seek_time := seek3 }

/-- `PlayingAnimation::replay`. -/
def PlayingAnimation.replay (s : PlayingAnimation) : PlayingAnimation :=
  { s with completions := 0, elapsed := 0, seek_time := 0 }

/-- The condition under which `update` records a completed pass on this
tick: `over_time || under_time` evaluated on the advanced seek time. -/
def passCondition (s : PlayingAnimation) (delta clip_duration : ℚ) : Prop :=
  (0 < s.speed ∧ clip_duration ≤ s.seek_time + delta * s.speed)
  ∨ (s.speed < 0 ∧ s.seek_time + delta * s.speed < 0)

instance (s : PlayingAnimation) (delta clip_duration : ℚ) :
    Decidable (passCondition s delta clip_duration) := by
  unfold passCondition
  infer_instance

/-! ## Curve data model -/

/-- `bevy_math::Vec3`, components as `ℚ`. -/
structure Vec3 where
  x : ℚ
  y : ℚ
  z : ℚ
  deriving DecidableEq

/-- `bevy_math::Quat`, components as `ℚ`. -/
structure Quat where
  x : ℚ
  y : ℚ
  z : ℚ
  w : ℚ
  deriving DecidableEq

instance : Add Vec3 :=
  ⟨fun a b => ⟨a.x + b.x, a.y + b.y, a.z + b.z⟩⟩

instance : Sub Vec3 :=
  ⟨fun a b => ⟨a.x - b.x, a.y - b.y, a.z - b.z⟩⟩

instance : HMul Vec3 ℚ Vec3 :=
  ⟨fun a s => ⟨a.x * s, a.y * s, a.z * s⟩⟩

instance : Add Quat :=
  ⟨fun a b => ⟨a.x + b.x, a.y + b.y, a.z + b.z, a.w + b.w⟩⟩

instance : Neg Quat :=
  ⟨fun a => ⟨-a.x, -a.y, -a.z, -a.w⟩⟩

instance : HMul Quat ℚ Quat :=
  ⟨fun a s => ⟨a.x * s, a.y * s, a.z * s, a.w * s⟩⟩

/-- `Quat::dot`. -/
def Quat.dot (a b : Quat) : ℚ :=
  a.x * b.x + a.y * b.y + a.z * b.z + a.w * b.w

/-- `Vec3::lerp`: `self + (rhs - self) * s`. -/
def Vec3.lerp (a b : Vec3) (s : ℚ) : Vec3 :=
  a + (b - a) * s

/-- `f32::lerp` from `bevy_math::FloatExt`: `self + (rhs - self) * s`. -/
def qlerp (a b s : ℚ) : ℚ :=
  a + (b - a) * s

/-- `f32::inverse_lerp` from `bevy_math::FloatExt`: `(v - a) / (b - a)`. -/
def inverse_lerp (a b v : ℚ) : ℚ :=
  (v - a) / (b - a)

/-- `Keyframes` from the source: tagged union over payload kinds. -/
inductive Keyframes where
  | Rotation (ks : List Quat)
  | Translation (ks : List Vec3)
  | Scale (ks : List Vec3)
  | Weights (ks : List ℚ)
  deriving DecidableEq

/-- `Keyframes::len`: the raw payload length (for `Weights` this is the
flat float count, for `CubicSpline` payloads it counts tangents too). -/
def Keyframes.len : Keyframes → Nat
  | Keyframes.Weights vec => vec.length
  | Keyframes.Translation vec => vec.length
  | Keyframes.Scale vec => vec.length
  | Keyframes.Rotation vec => vec.length

/-- `Interpolation` from the source. -/
inductive Interpolation where
  | Linear
  | Step
  | CubicSpline
  deriving DecidableEq

/-- `VariableCurve` from the source. -/
structure VariableCurve where
  keyframe_timestamps : List ℚ
  keyframes : Keyframes
  interpolation : Interpolation
  deriving DecidableEq

/-- Index of the first exact match of `target` in the list, if any. -/
def firstMatch (target : ℚ) : List ℚ → Option Nat
  | [] => none
  | t :: ts => if t = target then some 0 else (firstMatch target ts).map (· + 1)

/-- Number of elements strictly below `target`. -/
def countLt (target : ℚ) : List ℚ → Nat
  | [] => 0
  | t :: ts => (if t < target then 1 else 0) + countLt target ts

/-- Model of Rust `slice::binary_search_by` through its documented
contract, specialised to the strictly sorted inputs the animation code
feeds it: `Ok i` when `ts[i] = target` (the match is unique on sorted
input, and `firstMatch` picks it), otherwise `Err` of the insertion
point, which on sorted input is the number of elements below `target`. -/
def binarySearchModel (ts : List ℚ) (target : ℚ) : Except Nat Nat :=
  match firstMatch target ts with
  | some i => Except.ok i
  | none => Except.error (countLt target ts)

/-- `VariableCurve::find_current_keyframe`, translated arm by arm.  Note
the source computes `last_keyframe` from `self.keyframes.len()` (the raw
payload length), not from `keyframe_timestamps.len()`.  The source's
trailing `assert!(step_start < self.keyframe_timestamps.len())` cannot
fire on the `Ok`/`Err` values the search contract produces and is not
modelled.  `Nat` subtraction makes `last_keyframe = 0` when the payload
is empty, where Rust would panic on `usize` underflow in debug builds;
the claims only concern curves with a nonempty payload. -/
def VariableCurve.find_current_keyframe (c : VariableCurve) (seek_time : ℚ) :
    Option Nat :=
  let last_keyframe := c.keyframes.len - 1
  match binarySearchModel c.keyframe_timestamps seek_time with
  | Except.ok n => if last_keyframe ≤ n then none else some n
  | Except.error 0 => none
  | Except.error n => if last_keyframe < n then none else some (n - 1)

/-! ## Clip, transitions, player -/

/-- `AnimationTargetId`, modelled by its 16 uuid bytes (see the SHA-1
derivation further down). -/
def TargetId : Type := List Nat

instance : DecidableEq TargetId := by
  unfold TargetId
  infer_instance

instance : BEq TargetId :=
  ⟨fun a b => decide (a = b)⟩

instance : LawfulBEq TargetId :=
  ⟨by intro a b h; simpa using h, by intro a; simp [BEq.beq]⟩

/-- `AnimationClip`: the `HashMap` of curves is modelled as an
association list (only keyed lookup is exercised by the claims). -/
structure AnimationClip where
  curves : List (TargetId × List VariableCurve)
  duration : ℚ

/-- `AnimationClip::curves_for_target`. -/
def AnimationClip.curves_for_target (c : AnimationClip) (target_id : TargetId) :
    Option (List VariableCurve) :=
  (c.curves.lookup target_id).map id

/-- `AnimationTransition` from the source. -/
structure AnimationTransition where
  current_weight : ℚ
  weight_decline_per_sec : ℚ
  animation : PlayingAnimation
  deriving DecidableEq

/-- `AnimationPlayer` from the source. -/
structure AnimationPlayer where
  paused : Bool
  animation : PlayingAnimation
  transitions : List AnimationTransition
  deriving DecidableEq

/-- `Default for AnimationPlayer`. -/
def AnimationPlayer.defaultValue : AnimationPlayer :=
  { paused := false
    animation := PlayingAnimation.defaultValue
    transitions := [] }

/-- `AnimationPlayer::start`: fresh state bound to the clip, all pending
transitions cleared (hard cut). -/
def AnimationPlayer.start (p : AnimationPlayer) (handle : Nat) : AnimationPlayer :=
  { p with
    animation := { PlayingAnimation.defaultValue with animation_clip := handle }
    transitions := [] }

/-- `AnimationPlayer::start_with_transition`: swap a fresh state into the
active slot and push the old active state as a transition with weight 1.0
and decline rate `1 / duration` (`Duration::as_secs_f32` modelled as the
rational `transition_duration`); existing transitions are kept. -/
def AnimationPlayer.start_with_transition (p : AnimationPlayer) (handle : Nat)
    (transition_duration : ℚ) : AnimationPlayer :=
  { p with
    animation := { PlayingAnimation.defaultValue with animation_clip := handle }
    transitions := p.transitions ++
      [{ current_weight := 1
         weight_decline_per_sec := 1 / transition_duration
         animation := p.animation }] }

/-- The per-player body of the `advance_animations` system: skip when
paused; advance the main animation when its clip resolves; then
`retain_mut` over transitions — decline the weight, drop the transition
at weight ≤ 0, otherwise advance its animation when its clip resolves. -/
def advancePlayer (clips : Nat → Option AnimationClip) (delta : ℚ)
    (p : AnimationPlayer) : AnimationPlayer :=
  if p.paused then p else
  let animation :=
    match clips p.animation.animation_clip with
    | some clip => p.animation.update delta clip.duration
    | none => p.animation
  let transitions := p.transitions.filterMap fun t =>
    let w := t.current_weight - t.weight_decline_per_sec * delta
    if w ≤ 0 then none else
    let t1 := { t with current_weight := w }
    match clips t1.animation.animation_clip with
    | some clip => some { t1 with animation := t1.animation.update delta clip.duration }
    | none => some t1
  { p with animation := animation, transitions := transitions }

/-! ## Evaluator -/

/-- `bevy_transform::Transform` (the three animated fields). -/
structure Transform where
  rotation : Quat
  translation : Vec3
  scale : Vec3
  deriving DecidableEq

/-- `AnimationTargetContext` from the source.  `entity` and `name` are
used only to format diagnostics and are omitted; `morph_weights` models
the `MorphWeights` component as its weight list. -/
structure AnimationTargetContext where
  target_id : TargetId
  transform : Option Transform
  morph_weights : Option (List ℚ)
  deriving DecidableEq

/-- `Quat::slerp` and `Quat::normalize` involve square roots and
trigonometry, which have no exact rational form.  The evaluator is
parameterised over them; every theorem below holds for all
instantiations, and the concrete scenarios only exercise
translation/scale/weights arms, which never consult these operations. -/
structure QuatOps where
  slerp : Quat → Quat → ℚ → Quat
  normalize : Quat → Quat

/-- `cubic_spline_interpolation` from the source, generic over the
payload type exactly as the Rust function is generic over
`T: Mul<f32> + Add`. -/
def cubic_spline_interpolation {T : Type} [Add T] [HMul T ℚ T]
    (value_start tangent_out_start tangent_in_end value_end : T)
    (lerp step_duration : ℚ) : T :=
  value_start * (2 * lerp ^ 3 - 3 * lerp ^ 2 + 1)
    + tangent_out_start * step_duration * (lerp ^ 3 - 2 * lerp ^ 2 + lerp)
    + value_end * (-2 * lerp ^ 3 + 3 * lerp ^ 2)
    + tangent_in_end * step_duration * (lerp ^ 3 - lerp ^ 2)

/-- `lerp_morph_weights`: lerp each stored weight toward the zipped
keyframe value; weights beyond the keyframe iterator's length are left
untouched (Rust `zip` stops at the shorter side). -/
def lerp_morph_weights (weights keyframe : List ℚ) (key_lerp : ℚ) : List ℚ :=
  (List.zipWith (fun w k => qlerp w k key_lerp) weights keyframe)
    ++ weights.drop keyframe.length

/-- `get_keyframe`: the `target_count`-sized block at `key_index`.  Rust
panics when the slice range escapes the vector; the list operations here
truncate instead, and the claims only evaluate in-range blocks. -/
def get_keyframe (target_count : Nat) (keyframes : List ℚ) (key_index : Nat) :
    List ℚ :=
  (keyframes.take (target_count * (key_index + 1))).drop (target_count * key_index)

/-- `PlayingAnimation::apply_single_keyframe`, arm by arm.  Rust indexes
`keyframes[0]` and would panic on an empty payload; `getD` with a zero
default is used instead, and the claims only evaluate nonempty payloads. -/
def apply_single_keyframe (ops : QuatOps) (curve : VariableCurve) (weight : ℚ)
    (target_context : AnimationTargetContext) : AnimationTargetContext :=
  match curve.keyframes with
  | Keyframes.Rotation keyframes =>
    match target_context.transform with
    | some t =>
      { target_context with transform := some ({ t with rotation := ops.slerp t.rotation (keyframes.getD 0 ⟨0, 0, 0, 0⟩) weight }) }
    | none => target_context
  | Keyframes.Translation keyframes =>
    match target_context.transform with
    | some t =>
      { target_context with transform := some ({ t with translation := t.translation.lerp (keyframes.getD 0 ⟨0, 0, 0⟩) weight }) }
    | none => target_context
  | Keyframes.Scale keyframes =>
    match target_context.transform with
    | some t =>
      { target_context with transform := some ({ t with scale := t.scale.lerp (keyframes.getD 0 ⟨0, 0, 0⟩) weight }) }
    | none => target_context
  | Keyframes.Weights keyframes =>
    match target_context.morph_weights with
    | none => target_context
    | some morphs =>
      let target_count := morphs.length
      { target_context with morph_weights := some (lerp_morph_weights morphs (get_keyframe target_count keyframes 0) weight) }

/-- `PlayingAnimation::apply_tweened_keyframe`: the full
(interpolation × payload) dispatch matrix, arm by arm in source order.
Rust indexing (`keyframes[i]`) panics out of range; `getD` with a zero
default stands in, and the claims only evaluate in-range indices. -/
def apply_tweened_keyframe (ops : QuatOps) (curve : VariableCurve)
    (step_start : Nat) (weight lerp duration : ℚ)
    (target_context : AnimationTargetContext) : AnimationTargetContext :=
  match curve.interpolation, curve.keyframes with
  | Interpolation.Step, Keyframes.Rotation keyframes =>
    match target_context.transform with
    | some t => { target_context with transform := some ({ t with rotation := ops.slerp t.rotation (keyframes.getD step_start ⟨0, 0, 0, 0⟩) weight }) }
    | none => target_context
  | Interpolation.Linear, Keyframes.Rotation keyframes =>
    match target_context.transform with
    | none => target_context
    | some t =>
      let rot_start := keyframes.getD step_start ⟨0, 0, 0, 0⟩
      let rot_end0 := keyframes.getD (step_start + 1) ⟨0, 0, 0, 0⟩
      let rot_end := if rot_end0.dot rot_start < 0 then -rot_end0 else rot_end0
      let rot := ops.slerp (ops.normalize rot_start) (ops.normalize rot_end) lerp
      { target_context with transform := some ({ t with rotation := ops.slerp t.rotation rot weight }) }
  | Interpolation.CubicSpline, Keyframes.Rotation keyframes =>
    match target_context.transform with
    | none => target_context
    | some t =>
      let value_start := keyframes.getD (step_start * 3 + 1) ⟨0, 0, 0, 0⟩
      let tangent_out_start := keyframes.getD (step_start * 3 + 2) ⟨0, 0, 0, 0⟩
      let tangent_in_end := keyframes.getD ((step_start + 1) * 3) ⟨0, 0, 0, 0⟩
      let value_end := keyframes.getD ((step_start + 1) * 3 + 1) ⟨0, 0, 0, 0⟩
      let result := cubic_spline_interpolation value_start tangent_out_start tangent_in_end value_end lerp duration
      { target_context with transform := some ({ t with rotation := ops.slerp t.rotation (ops.normalize result) weight }) }
  | Interpolation.Step, Keyframes.Translation keyframes =>
    match target_context.transform with
    | some t => { target_context with transform := some ({ t with translation := t.translation.lerp (keyframes.getD step_start ⟨0, 0, 0⟩) weight }) }
    | none => target_context
  | Interpolation.Linear, Keyframes.Translation keyframes =>
    match target_context.transform with
    | none => target_context
    | some t =>
      let translation_start := keyframes.getD step_start ⟨0, 0, 0⟩
      let translation_end := keyframes.getD (step_start + 1) ⟨0, 0, 0⟩
      let result := translation_start.lerp translation_end lerp
      { target_context with transform := some ({ t with translation := t.translation.lerp result weight }) }
  | Interpolation.CubicSpline, Keyframes.Translation keyframes =>
    match target_context.transform with
    | none => target_context
    | some t =>
      let value_start := keyframes.getD (step_start * 3 + 1) ⟨0, 0, 0⟩
      let tangent_out_start := keyframes.getD (step_start * 3 + 2) ⟨0, 0, 0⟩
      let tangent_in_end := keyframes.getD ((step_start + 1) * 3) ⟨0, 0, 0⟩
      let value_end := keyframes.getD ((step_start + 1) * 3 + 1) ⟨0, 0, 0⟩
      let result := cubic_spline_interpolation value_start tangent_out_start tangent_in_end value_end lerp duration
      { target_context with transform := some ({ t with translation := t.translation.lerp result weight }) }
  | Interpolation.Step, Keyframes.Scale keyframes =>
    match target_context.transform with
    | some t => { target_context with transform := some ({ t with scale := t.scale.lerp (keyframes.getD step_start ⟨0, 0, 0⟩) weight }) }
    | none => target_context
  | Interpolation.Linear, Keyframes.Scale keyframes =>
    match target_context.transform with
    | none => target_context
    | some t =>
      let scale_start := keyframes.getD step_start ⟨0, 0, 0⟩
      let scale_end := keyframes.getD (step_start + 1) ⟨0, 0, 0⟩
      let result := scale_start.lerp scale_end lerp
      { target_context with transform := some ({ t with scale := t.scale.lerp result weight }) }
  | Interpolation.CubicSpline, Keyframes.Scale keyframes =>
    match target_context.transform with
    | none => target_context
    | some t =>
      let value_start := keyframes.getD (step_start * 3 + 1) ⟨0, 0, 0⟩
      let tangent_out_start := keyframes.getD (step_start * 3 + 2) ⟨0, 0, 0⟩
      let tangent_in_end := keyframes.getD ((step_start + 1) * 3) ⟨0, 0, 0⟩
      let value_end := keyframes.getD ((step_start + 1) * 3 + 1) ⟨0, 0, 0⟩
      let result := cubic_spline_interpolation value_start tangent_out_start tangent_in_end value_end lerp duration
      { target_context with transform := some ({ t with scale := t.scale.lerp result weight }) }
  | Interpolation.Step, Keyframes.Weights keyframes =>
    match target_context.morph_weights with
    | none => target_context
    | some morphs =>
      let target_count := morphs.length
      let morph_start := get_keyframe target_count keyframes step_start
      { target_context with morph_weights := some (lerp_morph_weights morphs morph_start weight) }
  | Interpolation.Linear, Keyframes.Weights keyframes =>
    match target_context.morph_weights with
    | none => target_context
    | some morphs =>
      let target_count := morphs.length
      let morph_start := get_keyframe target_count keyframes step_start
      let morph_end := get_keyframe target_count keyframes (step_start + 1)
      let result := List.zipWith (fun a b => qlerp a b lerp) morph_start morph_end
      { target_context with morph_weights := some (lerp_morph_weights morphs result weight) }
  | Interpolation.CubicSpline, Keyframes.Weights keyframes =>
    match target_context.morph_weights with
    | none => target_context
    | some morphs =>
      let target_count := morphs.length
      let morph_start := get_keyframe target_count keyframes (step_start * 3 + 1)
      let tangents_out_start := get_keyframe target_count keyframes (step_start * 3 + 2)
      let tangents_in_end := get_keyframe target_count keyframes ((step_start + 1) * 3)
      let morph_end := get_keyframe target_count keyframes ((step_start + 1) * 3 + 1)
      let result := List.zipWith
        (fun (ab : ℚ × ℚ) (cd : ℚ × ℚ) => cubic_spline_interpolation ab.1 ab.2 cd.1 cd.2 lerp duration)
        (morph_start.zip tangents_out_start) (tangents_in_end.zip morph_end)
      { target_context with morph_weights := some (lerp_morph_weights morphs result weight) }

/-- The `for curve in curves` loop body of `PlayingAnimation::apply`.
Faithful to the source's control flow: both the single-keyframe branch
and a `None` from `find_current_keyframe` execute `return`, ending the
whole loop — the remaining curves of the list are NOT processed. -/
def applyCurveList (ops : QuatOps) (pa : PlayingAnimation) (weight : ℚ) :
    List VariableCurve → AnimationTargetContext → AnimationTargetContext
  | [], target_context => target_context
  | curve :: rest, target_context =>
    if curve.keyframe_timestamps.length = 1 then
      apply_single_keyframe ops curve weight target_context
    else
      match curve.find_current_keyframe pa.seek_time with
      | none => target_context
      | some step_start =>
        let timestamp_start := curve.keyframe_timestamps.getD step_start 0
        let timestamp_end := curve.keyframe_timestamps.getD (step_start + 1) 0
        let lerp := inverse_lerp timestamp_start timestamp_end pa.seek_time
        applyCurveList ops pa weight rest
          (apply_tweened_keyframe ops curve step_start weight lerp (timestamp_end - timestamp_start) target_context)

/-- `PlayingAnimation::apply`: bail when the clip is not loaded or does
not animate this target, otherwise run the curve loop. -/
def PlayingAnimation.apply (ops : QuatOps) (clips : Nat → Option AnimationClip)
    (pa : PlayingAnimation) (weight : ℚ)
    (target_context : AnimationTargetContext) : AnimationTargetContext :=
  match clips pa.animation_clip with
  | none => target_context
  | some clip =>
    match clip.curves_for_target target_context.target_id with
    | none => target_context
    | some curves => applyCurveList ops pa weight curves target_context

/-! ## AnimationTargetId derivation (SHA-1, `sha1_smol`) -/

/-- Rotate a 32-bit word left by `k`. -/
def rotl32 (k n : Nat) : Nat :=
  ((n <<< k) ||| (n >>> (32 - k))) % 4294967296

/-- Big-endian bytes of a 32-bit word. -/
def be4 (n : Nat) : List Nat :=
  [(n >>> 24) % 256, (n >>> 16) % 256, (n >>> 8) % 256, n % 256]

/-- Big-endian bytes of a 64-bit word. -/
def be8 (n : Nat) : List Nat :=
  [(n >>> 56) % 256, (n >>> 48) % 256, (n >>> 40) % 256, (n >>> 32) % 256,
   (n >>> 24) % 256, (n >>> 16) % 256, (n >>> 8) % 256, n % 256]

/-- SHA-1 padding: `0x80`, zeros to 56 mod 64, 64-bit big-endian bit length. -/
def sha1Pad (msg : List Nat) : List Nat :=
  msg ++ [128] ++ List.replicate ((119 - msg.length % 64) % 64) 0 ++ be8 (msg.length * 8)

/-- Split a byte list into 64-byte blocks (structural recursion on a
fuel counter so the kernel can evaluate it; each step consumes a full
64-byte block, so fuel equal to the list length always suffices). -/
def chunks64Go : Nat → List Nat → List (List Nat)
  | _, [] => []
  | 0, _ :: _ => []
  | fuel + 1, x :: xs => ((x :: xs).take 64) :: chunks64Go fuel ((x :: xs).drop 64)

/-- Split a byte list into 64-byte blocks. -/
def chunks64 (l : List Nat) : List (List Nat) :=
  chunks64Go l.length l

/-- Big-endian 32-bit words of a block. -/
def wordsOf : List Nat → List Nat
  | a :: b :: c :: d :: rest => (a * 16777216 + b * 65536 + c * 256 + d) :: wordsOf rest
  | _ => []

/-- Message-schedule extension: push `rotl1` of the xor of words at
offsets 3, 8, 14 and 16 back, `n` times. -/
def sha1ExtendLoop : Nat → Array Nat → Array Nat
  | 0, w => w
  | n + 1, w =>
    let i := w.size
    let x := rotl32 1 ((((w.getD (i - 3) 0) ^^^ (w.getD (i - 8) 0)) ^^^ (w.getD (i - 14) 0)) ^^^ (w.getD (i - 16) 0))
    sha1ExtendLoop n (w.push x)

/-- One SHA-1 round on the five-word state. -/
def sha1Round (w : Array Nat) (st : Nat × Nat × Nat × Nat × Nat) (i : Nat) :
    Nat × Nat × Nat × Nat × Nat :=
  match st with
  | (a, b, c, d, e) =>
    let fk : Nat × Nat :=
      if i < 20 then ((b &&& c) ||| ((b ^^^ 4294967295) &&& d), 1518500249)
      else if i < 40 then (b ^^^ c ^^^ d, 1859775393)
      else if i < 60 then ((b &&& c) ||| (b &&& d) ||| (c &&& d), 2400959708)
      else (b ^^^ c ^^^ d, 3395469782)
    ((rotl32 5 a + fk.1 + e + fk.2 + w.getD i 0) % 4294967296, a, rotl32 30 b, c, d)

/-- SHA-1 compression of one 64-byte block. -/
def sha1Compress (st : Nat × Nat × Nat × Nat × Nat) (block : List Nat) :
    Nat × Nat × Nat × Nat × Nat :=
  let w := sha1ExtendLoop 64 (Array.mk (wordsOf block))
  match st, (List.range 80).foldl (sha1Round w) st with
  | (h0, h1, h2, h3, h4), (a, b, c, d, e) =>
    ((h0 + a) % 4294967296, (h1 + b) % 4294967296, (h2 + c) % 4294967296,
     (h3 + d) % 4294967296, (h4 + e) % 4294967296)

/-- The 20-byte SHA-1 digest of a byte sequence.  Feeding the message in
chunks through `sha1_smol`'s streaming `update` equals hashing the
concatenation, which is what this function takes. -/
def sha1Digest (msg : List Nat) : List Nat :=
  match (chunks64 (sha1Pad msg)).foldl sha1Compress
      (1732584193, 4023233417, 2562383102, 271733878, 3285377520) with
  | (h0, h1, h2, h3, h4) => be4 h0 ++ be4 h1 ++ be4 h2 ++ be4 h3 ++ be4 h4

/-- `uuid::Builder::from_sha1_bytes`: stamp version 5 into byte 6 and the
RFC-4122 variant into byte 8. -/
def uuidFromSha1Bytes (bs : List Nat) : List Nat :=
  ((List.range bs.length).zip bs).map fun p =>
    if p.1 = 6 then (p.2 &&& 15) ||| 80
    else if p.1 = 8 then (p.2 &&& 63) ||| 128
    else p.2

/-- `ANIMATION_TARGET_NAMESPACE` (`Uuid::from_u128(0x3179f519d9274ff2b5966fd077023911)`)
as its 16 big-endian bytes. -/
def ANIMATION_TARGET_NAMESPACE : List Nat :=
  [49, 121, 245, 25, 217, 39, 79, 242, 181, 150, 111, 208, 119, 2, 57, 17]

/-- `AnimationTargetId::from_names`: SHA-1 over the namespace bytes
followed by each name's UTF-8 bytes in order (streamed with no separator),
first 16 digest bytes, then the version/variant stamping.  Names are taken
as their byte sequences (`Name::as_bytes`). -/
def AnimationTargetId.from_names (names : List (List Nat)) : TargetId :=
  uuidFromSha1Bytes ((sha1Digest (ANIMATION_TARGET_NAMESPACE ++ names.flatten)).take 16)

/-- `AnimationTargetId::from_name`. -/
def AnimationTargetId.from_name (name : List Nat) : TargetId :=
  AnimationTargetId.from_names [name]

/-! ## Concrete scenario data used by the claims -/

/-- The translation curve of the source's own unit tests:
timestamps `[1,2,3,4]`, one `Vec3` keyframe per timestamp, linear. -/
def testCurve : VariableCurve :=
  { keyframe_timestamps := [1, 2, 3, 4]
    keyframes := Keyframes.Translation [⟨0, 0, 0⟩, ⟨3, 3, 3⟩, ⟨6, 6, 6⟩, ⟨9, 9, 9⟩]
    interpolation := Interpolation.Linear }

/-- A well-formed 2-keyframe cubic-spline rotation curve: 2 timestamps,
payload of 2 × 3 quaternions (in-tangent, value, out-tangent per logical
keyframe), exactly the layout the `VariableCurve` docs prescribe. -/
def cubicRotationCurve : VariableCurve :=
  { keyframe_timestamps := [0, 1]
    keyframes := Keyframes.Rotation
      [⟨0, 0, 0, 1⟩, ⟨0, 0, 0, 1⟩, ⟨0, 0, 0, 1⟩, ⟨0, 0, 0, 1⟩, ⟨0, 0, 0, 1⟩, ⟨0, 0, 0, 1⟩]
    interpolation := Interpolation.CubicSpline }

/-- A one-keyframe translation curve (the `apply` fast path). -/
def singleKeyframeCurve : VariableCurve :=
  { keyframe_timestamps := [0]
    keyframes := Keyframes.Translation [⟨2, 3, 4⟩]
    interpolation := Interpolation.Linear }

/-- A two-keyframe scale curve active on `[0, 1]`. -/
def scaleCurve : VariableCurve :=
  { keyframe_timestamps := [0, 1]
    keyframes := Keyframes.Scale [⟨5, 5, 5⟩, ⟨7, 7, 7⟩]
    interpolation := Interpolation.Linear }

/-- A two-keyframe translation curve that only starts at time 5. -/
def lateCurve : VariableCurve :=
  { keyframe_timestamps := [5, 6]
    keyframes := Keyframes.Translation [⟨1, 1, 1⟩, ⟨2, 2, 2⟩]
    interpolation := Interpolation.Linear }

/-- The target id used by the evaluator scenarios. -/
def demoTarget : TargetId :=
  [0]

/-- Clip whose curve list for `demoTarget` is a single-keyframe curve
followed by a scale curve. -/
def demoClip1 : AnimationClip :=
  { curves := [(demoTarget, [singleKeyframeCurve, scaleCurve])], duration := 1 }

/-- Clip whose curve list for `demoTarget` is a not-yet-started curve
followed by a scale curve. -/
def demoClip2 : AnimationClip :=
  { curves := [(demoTarget, [lateCurve, scaleCurve])], duration := 6 }

/-- Clip store for the evaluator scenarios: handle 0 resolves to
`demoClip1`, handle 1 to `demoClip2`. -/
def demoStore : Nat → Option AnimationClip := fun h =>
  if h = 0 then some demoClip1 else if h = 1 then some demoClip2 else none

/-- A fresh playing animation bound to clip handle 0 (seek time 0). -/
def demoAnimation : PlayingAnimation :=
  PlayingAnimation.defaultValue

/-- A fresh playing animation bound to clip handle 1 (seek time 0). -/
def demoAnimation2 : PlayingAnimation :=
  { PlayingAnimation.defaultValue with animation_clip := 1 }

/-- Target context with an identity-ish transform and no morph weights. -/
def demoContext : AnimationTargetContext :=
  { target_id := demoTarget
    transform := some { rotation := ⟨0, 0, 0, 1⟩, translation := ⟨0, 0, 0⟩, scale := ⟨1, 1, 1⟩ }
    morph_weights := none }

/-- Clip store for the transition scenario: handles 1 and 2 are loaded
clips of duration 10. -/
def transitionStore : Nat → Option AnimationClip := fun h =>
  if h = 1 ∨ h = 2 then some { curves := [], duration := 10 } else none

/-- `start(clipA)` on a default player (clip A is handle 1). -/
def playerA : AnimationPlayer :=
  AnimationPlayer.defaultValue.start 1

/-- `start_with_transition(clipB, 1s)` after `start(clipA)` (handle 2). -/
def playerAB : AnimationPlayer :=
  playerA.start_with_transition 2 1

/-- The player after a 0.5 s unpaused advance. -/
def playerABhalf : AnimationPlayer :=
  advancePlayer transitionStore (1/2) playerAB

/-- The player after a further 0.5 s unpaused advance (1.0 s total). -/
def playerABfull : AnimationPlayer :=
  advancePlayer transitionStore (1/2) playerABhalf

/-- A playing animation with `RepeatAnimation::Count(0)`, as freshly
created by `start`. -/
def countZeroAnimation : PlayingAnimation :=
  { PlayingAnimation.defaultValue with repeatMode := RepeatAnimation.Count 0 }

/-- UTF-8 bytes of the name `Hips`. -/
def hipsBytes : List Nat :=
  [72, 105, 112, 115]

/-- UTF-8 bytes of the name `Chest`. -/
def chestBytes : List Nat :=
  [67, 104, 101, 115, 116]

/-- Sample state for the `Count` policy: `Count(2)`, one completion so
far, about to cross the clip end (seek 3/2, duration 2, delta 1). -/
def countSample : PlayingAnimation :=
  { repeatMode := RepeatAnimation.Count 2
    speed := 1
    elapsed := 0
    seek_time := 3/2
    animation_clip := 0
    completions := 1 }

/-- Sample state for reverse playback: `Forever`, speed −1, seek 1/2. -/
def reverseSample : PlayingAnimation :=
  { repeatMode := RepeatAnimation.Forever
    speed := -1
    elapsed := 0
    seek_time := 1/2
    animation_clip := 0
    completions := 0 }

/-- Sample state for the `Never` policy after its first full pass. -/
def neverSample : PlayingAnimation :=
  { repeatMode := RepeatAnimation.Never
    speed := 1
    elapsed := 5
    seek_time := 3/4
    animation_clip := 0
    completions := 1 }

/-! ## Helper lemmas -/

/-- On a strictly sorted list the unique exact match is found at its index. -/
theorem firstMatch_sorted_eq (q : ℚ) (l : List ℚ) (hs : l.Sorted (· < ·)) :
    ∀ (i : Nat) (hi : i < l.length), l.get ⟨i, hi⟩ = q → firstMatch q l = some i := by
  induction l with
  | nil => intro i hi _; simp at hi
  | cons t ts ih =>
    intro i hi hq
    rcases List.sorted_cons.mp hs with ⟨hts, hsts⟩
    cases i with
    | zero =>
      simp only [List.get] at hq
      simp [firstMatch, hq]
    | succ j =>
      have hj : j < ts.length := by simpa using hi
      have hq2 : ts.get ⟨j, hj⟩ = q := by simpa using hq
      have htq : t < q := hq2 ▸ hts _ (ts.get_mem _ _)
      have hne : ¬(t = q) := ne_of_lt htq
      simp [firstMatch, hne, ih hsts j hj hq2]

/-- No exact match anywhere means `firstMatch` misses. -/
theorem firstMatch_eq_none (q : ℚ) (l : List ℚ) (h : ∀ a ∈ l, a ≠ q) :
    firstMatch q l = none := by
  induction l with
  | nil => rfl
  | cons t ts ih =>
    have ht : ¬(t = q) := h t (List.mem_cons_self t ts)
    simp [firstMatch, ht, ih (fun a ha => h a (List.mem_cons_of_mem t ha))]

/-- When membership below `q` is exactly membership below index `k`, the
strict count is `k`. -/
theorem countLt_eq_of_cutoff (q : ℚ) (l : List ℚ) :
    ∀ (k : Nat), k ≤ l.length →
      (∀ (j : Nat) (hj : j < l.length), l.get ⟨j, hj⟩ < q ↔ j < k) →
      countLt q l = k := by
  induction l with
  | nil =>
    intro k hk _
    simp only [List.length_nil, Nat.le_zero] at hk
    subst hk
    rfl
  | cons t ts ih =>
    intro k hk h
    cases k with
    | zero =>
      have ht : ¬(t < q) := by
        have h0 := h 0 (by simp)
        simpa using h0
      have hts0 : ∀ (j : Nat) (hj : j < ts.length), ts.get ⟨j, hj⟩ < q ↔ j < 0 := by
        intro j hj
        have hj1 : j + 1 < (t :: ts).length := by simp; omega
        have h2 := h (j + 1) hj1
        simpa using h2
      simp [countLt, ht, ih 0 (by simp) hts0]
    | succ k' =>
      have ht : t < q := by
        have h0 := h 0 (by simp)
        simpa using h0
      have hts : ∀ (j : Nat) (hj : j < ts.length), ts.get ⟨j, hj⟩ < q ↔ j < k' := by
        intro j hj
        have hj1 : j + 1 < (t :: ts).length := by simp; omega
        have h2 := h (j + 1) hj1
        simpa [Nat.succ_lt_succ_iff] using h2
      have hk' : k' ≤ ts.length := by simp at hk; omega
      simp [countLt, ht, ih k' hk' hts]
      omega

/-- Rust float `%` subtracts one period when the argument lies in the
second period. -/
theorem rustRem_sub (a b : ℚ) (hb : 0 < b) (h1 : b ≤ a) (h2 : a < 2 * b) :
    rustRem a b = a - b := by
  unfold rustRem qtrunc
  rw [if_neg (ne_of_gt hb)]
  have hq : 0 ≤ a / b := div_nonneg (by linarith) (le_of_lt hb)
  rw [if_pos hq]
  have hfl : ⌊a / b⌋ = 1 := by
    rw [Int.floor_eq_iff]
    constructor
    · exact_mod_cast (one_le_div hb).mpr h1
    · push_cast
      exact (div_lt_iff₀ hb).mpr (by linarith)
  rw [hfl]
  push_cast
  ring

/-- A finished animation ignores `update` entirely. -/
theorem update_finished_frozen (s : PlayingAnimation) (delta clip_duration : ℚ)
    (hf : s.is_finished = true) : s.update delta clip_duration = s := by
  simp [PlayingAnimation.update, hf]

/-- `update` bumps `completions` by exactly one (as a `u32`) precisely on
the ticks where `over_time || under_time` holds. -/
theorem update_completions_char (s : PlayingAnimation) (delta clip_duration : ℚ)
    (hf : s.is_finished = false) :
    (s.update delta clip_duration).completions =
      if passCondition s delta clip_duration then (s.completions + 1) % 4294967296
      else s.completions := by
  unfold PlayingAnimation.update
  rw [hf]
  simp only [Bool.false_eq_true, if_false, Bool.and_eq_true, Bool.or_eq_true,
    decide_eq_true_eq]
  by_cases hp : passCondition s delta clip_duration
  · rw [if_pos hp]
    have hp2 : (0 < s.speed ∧ clip_duration ≤ s.seek_time + delta * s.speed)
        ∨ (s.speed < 0 ∧ s.seek_time + delta * s.speed < 0) := hp
    simp only [hp2, if_true, true_and]
    split
    · rfl
    · rfl
  · rw [if_neg hp]
    have hp2 : ¬((0 < s.speed ∧ clip_duration ≤ s.seek_time + delta * s.speed)
        ∨ (s.speed < 0 ∧ s.seek_time + delta * s.speed < 0)) := hp
    simp only [hp2, if_false, false_and]

/-- `update` never changes the repeat policy. -/
theorem update_repeatMode (s : PlayingAnimation) (delta clip_duration : ℚ) :
    (s.update delta clip_duration).repeatMode = s.repeatMode := by
  unfold PlayingAnimation.update
  split
  · rfl
  · dsimp only
    split
    all_goals first
      | rfl
      | (split <;> rfl)

/-- `is_finished` only reads the repeat policy and the completion count. -/
theorem is_finished_congr (s t : PlayingAnimation) (hr : t.repeatMode = s.repeatMode)
    (hc : t.completions = s.completions) : t.is_finished = s.is_finished := by
  unfold PlayingAnimation.is_finished
  rw [hr, hc]

/-- When the update does not early-return as freshly finished, the final
seek time is the advanced seek time wrapped by `%=` and the negative
correction. -/
theorem update_seek_result (s : PlayingAnimation) (delta clip_duration : ℚ)
    (hf : s.is_finished = false)
    (hnf : (s.update delta clip_duration).is_finished = false) :
    (s.update delta clip_duration).seek_time =
      (let st := s.seek_time + delta * s.speed
       let seek2 := if clip_duration ≤ st then rustRem st clip_duration else st
       if seek2 < 0 then seek2 + clip_duration else seek2) := by
  unfold PlayingAnimation.update at hnf ⊢
  rw [hf] at hnf ⊢
  simp only [Bool.false_eq_true, if_false, Bool.and_eq_true, Bool.or_eq_true,
    decide_eq_true_eq] at hnf ⊢
  by_cases hp : (0 < s.speed ∧ clip_duration ≤ s.seek_time + delta * s.speed)
      ∨ (s.speed < 0 ∧ s.seek_time + delta * s.speed < 0)
  · simp only [hp, if_true, true_and] at hnf ⊢
    split at hnf
    · rename_i hfin
      rw [hnf] at hfin
      simp at hfin
    · rename_i hfin
      rw [if_neg hfin]
  · simp only [hp, if_false, false_and] at hnf ⊢

/-! ## Claim theorems -/

/-- C2: the claim says `find_current_keyframe` returns `None` for every
curve with at least 2 keyframes, of any payload kind and interpolation
mode, whenever the seek time is at or past the last timestamp.  The code
instead compares the binary-search result against
`self.keyframes.len() - 1`, the raw payload length; for a well-formed
2-keyframe cubic-spline rotation curve (payload length 6) it returns
`Some 1` both at the last timestamp (seek 1) and past it (seek 2), and
the caller would then read `keyframe_timestamps[2]`, out of bounds.  The
strictly-before-first-timestamp half of the claim does hold (the `Err(0)`
arm), also shown here at seek −1. -/
theorem find_current_keyframe_cubic_bug :
    cubicRotationCurve.find_current_keyframe 1 = some 1
    ∧ cubicRotationCurve.find_current_keyframe 2 = some 1
    ∧ cubicRotationCurve.find_current_keyframe (-1) = none := by
  refine ⟨?_, ?_, ?_⟩ <;> with_unfolding_all decide

/-- C3, counterexample to the claim as stated: the claim's second half
says every `Some index` result satisfies `index < keyframe_count − 1`
with `keyframe_count` the logical keyframe count (the timestamp count),
so that a valid next keyframe always exists.  On the well-formed
2-keyframe cubic-spline curve at seek time 1 the code returns `Some 1`,
yet `1 < timestamps.length − 1 = 1` fails and index 2 — where the caller
reads the next timestamp — is out of bounds: no next keyframe exists. -/
theorem find_current_keyframe_no_next_counterexample :
    cubicRotationCurve.find_current_keyframe 1 = some 1
    ∧ ¬(1 < cubicRotationCurve.keyframe_timestamps.length - 1)
    ∧ ¬(1 + 1 < cubicRotationCurve.keyframe_timestamps.length) := by
  refine ⟨by with_unfolding_all decide, by decide, by decide⟩

/-- C3 as amended: for every curve with strictly increasing timestamps
(and the data-model length invariant, under which every payload kind has
at least as many raw payload entries as timestamps), any seek time in
`[timestamps[i], timestamps[i+1])` with `i ≤ len − 2` resolves to
exactly `Some i`; and every `Some` result is below
`keyframes.len() − 1` for the RAW payload length the code itself
compares against — which coincides with the logical keyframe count and
hence guarantees a valid next keyframe only for Step/Linear payloads,
not for CubicSpline/Weights ones (see the counterexample above and C2). -/
theorem find_current_keyframe_interval_correct (c : VariableCurve)
    (hs : c.keyframe_timestamps.Sorted (· < ·))
    (hlen : c.keyframe_timestamps.length ≤ c.keyframes.len) :
    (∀ (i : Nat) (hi : i + 1 < c.keyframe_timestamps.length) (q : ℚ),
        c.keyframe_timestamps.get ⟨i, by omega⟩ ≤ q →
        q < c.keyframe_timestamps.get ⟨i + 1, hi⟩ →
        c.find_current_keyframe q = some i)
    ∧ (∀ (q : ℚ) (j : Nat), c.find_current_keyframe q = some j →
        j < c.keyframes.len - 1) := by
  constructor
  · intro i hi q hiq hq1
    have hpw := List.pairwise_iff_get.mp hs
    rcases eq_or_lt_of_le hiq with heq | hlt
    · have hfm : firstMatch q c.keyframe_timestamps = some i :=
        firstMatch_sorted_eq q c.keyframe_timestamps hs i (by omega) heq
      simp only [VariableCurve.find_current_keyframe, binarySearchModel, hfm]
      rw [if_neg (by omega)]
    · have hnone : firstMatch q c.keyframe_timestamps = none := by
        apply firstMatch_eq_none
        intro a ha
        rcases List.mem_iff_get.mp ha with ⟨⟨j, hj⟩, hja⟩
        subst hja
        by_cases hcmp : j ≤ i
        · rcases Nat.lt_or_ge j i with hji | hji
          · exact ne_of_lt (lt_trans (hpw ⟨j, hj⟩ ⟨i, by omega⟩ hji) hlt)
          · have hji2 : j = i := by omega
            subst hji2
            exact ne_of_lt hlt
        · push_neg at hcmp
          have hge : q < c.keyframe_timestamps.get ⟨j, hj⟩ := by
            rcases Nat.lt_or_ge (i + 1) j with hj1 | hj1
            · exact lt_trans hq1 (hpw ⟨i + 1, hi⟩ ⟨j, hj⟩ hj1)
            · have hj2 : j = i + 1 := by omega
              subst hj2
              exact hq1
          exact (ne_of_lt hge).symm
      have hcnt : countLt q c.keyframe_timestamps = i + 1 := by
        apply countLt_eq_of_cutoff q c.keyframe_timestamps (i + 1) (by omega)
        intro j hj
        constructor
        · intro hlt2
          by_contra hcon
          push_neg at hcon
          have hq2 : q < c.keyframe_timestamps.get ⟨j, hj⟩ := by
            rcases Nat.lt_or_ge (i + 1) j with hj1 | hj1
            · exact lt_trans hq1 (hpw ⟨i + 1, hi⟩ ⟨j, hj⟩ hj1)
            · have hj2 : j = i + 1 := by omega
              subst hj2
              exact hq1
          exact absurd hlt2 (not_lt.mpr (le_of_lt hq2))
        · intro hji
          rcases Nat.lt_or_ge j i with hj1 | hj1
          · exact lt_trans (hpw ⟨j, hj⟩ ⟨i, by omega⟩ hj1) hlt
          · have hj2 : j = i := by omega
            subst hj2
            exact hlt
      simp only [VariableCurve.find_current_keyframe, binarySearchModel, hnone, hcnt]
      rw [if_neg (by omega)]
      simp
  · intro q j hj
    rcases hfm : firstMatch q c.keyframe_timestamps with _ | i
    · cases hcnt : countLt q c.keyframe_timestamps with
      | zero =>
        simp only [VariableCurve.find_current_keyframe, binarySearchModel, hfm, hcnt] at hj
        simp at hj
      | succ m =>
        simp only [VariableCurve.find_current_keyframe, binarySearchModel, hfm, hcnt] at hj
        split at hj
        · simp at hj
        · rename_i hlast
          simp only [Option.some.injEq] at hj
          omega
    · simp only [VariableCurve.find_current_keyframe, binarySearchModel, hfm] at hj
      split at hj
      · simp at hj
      · rename_i hlast
        simp only [Option.some.injEq] at hj
        omega

/-- Witness for C3 on the source's own test curve at seek time 5/2. -/
theorem find_current_keyframe_interval_correct_witness :
    testCurve.keyframe_timestamps.Sorted (· < ·)
    ∧ testCurve.keyframe_timestamps.length ≤ testCurve.keyframes.len
    ∧ testCurve.find_current_keyframe (5/2) = some 1 := by
  have hs : testCurve.keyframe_timestamps.Sorted (· < ·) := by
    with_unfolding_all decide
  have hl : testCurve.keyframe_timestamps.length ≤ testCurve.keyframes.len := by
    decide
  refine ⟨hs, hl, ?_⟩
  exact (find_current_keyframe_interval_correct testCurve hs hl).1 1 (by decide) (5/2)
    (by with_unfolding_all decide) (by with_unfolding_all decide)

/-- C4: with `RepeatAnimation::Count(n)` (a `u32`, hence `n < 2^32`),
`is_finished` is true exactly when `completions` has reached `n` and
false below it, and an unfinished `update` adds exactly one completion
on a tick that detects a full pass (`over_time || under_time`) and none
otherwise. -/
theorem count_repeat_completion_semantics (s : PlayingAnimation) (n : Nat)
    (delta clip_duration : ℚ)
    (hrep : s.repeatMode = RepeatAnimation.Count n) (hn : n ≤ 4294967295) :
    (s.is_finished = true ↔ n ≤ s.completions)
    ∧ (s.is_finished = false →
        (s.update delta clip_duration).completions =
          if passCondition s delta clip_duration then s.completions + 1
          else s.completions) := by
  have hiff : s.is_finished = true ↔ n ≤ s.completions := by
    unfold PlayingAnimation.is_finished
    rw [hrep]
    simp
  refine ⟨hiff, ?_⟩
  intro hf
  have hcl : s.completions < n := by
    by_contra hc
    push_neg at hc
    have h2 := hiff.mpr hc
    rw [hf] at h2
    simp at h2
  rw [update_completions_char s delta clip_duration hf]
  by_cases hp : passCondition s delta clip_duration
  · rw [if_pos hp, if_pos hp, Nat.mod_eq_of_lt (by omega)]
  · rw [if_neg hp, if_neg hp]

/-- Witness for C4: `Count(2)` with one completion, crossing the clip
end on this tick (seek 3/2 + 1 ≥ duration 2). -/
theorem count_repeat_completion_semantics_witness :
    countSample.repeatMode = RepeatAnimation.Count 2
    ∧ (2 : Nat) ≤ 4294967295
    ∧ ((countSample.is_finished = true ↔ 2 ≤ countSample.completions)
        ∧ (countSample.is_finished = false →
            (countSample.update 1 2).completions =
              if passCondition countSample 1 2 then countSample.completions + 1
              else countSample.completions)) :=
  ⟨rfl, by decide, count_repeat_completion_semantics countSample 2 1 2 rfl (by decide)⟩

/-- C5: starting unfinished with seek time in `[0, clip_duration)` and a
tick of magnitude at most one clip duration (and a `u32`-representable
completion bump), if the animation is still unfinished after `update`
the seek time is again in `[0, clip_duration)`; moreover with negative
speed the seek time decreases when no wrap occurs, and a full reverse
pass increments `completions` and wraps by adding `clip_duration`. -/
theorem update_seek_time_invariant (s : PlayingAnimation) (delta clip_duration : ℚ)
    (hf : s.is_finished = false)
    (h0 : 0 ≤ s.seek_time) (h1 : s.seek_time < clip_duration)
    (hmag : |delta * s.speed| ≤ clip_duration)
    (hover : s.completions + 1 < 4294967296) :
    ((s.update delta clip_duration).is_finished = false →
        0 ≤ (s.update delta clip_duration).seek_time
          ∧ (s.update delta clip_duration).seek_time < clip_duration)
    ∧ (s.speed < 0 → 0 < delta → 0 ≤ s.seek_time + delta * s.speed →
        (s.update delta clip_duration).seek_time < s.seek_time)
    ∧ (s.speed < 0 → s.seek_time + delta * s.speed < 0 →
        (s.update delta clip_duration).completions = s.completions + 1
          ∧ ((s.update delta clip_duration).is_finished = false →
              (s.update delta clip_duration).seek_time
                = s.seek_time + delta * s.speed + clip_duration)) := by
  have hd : 0 < clip_duration := lt_of_le_of_lt h0 h1
  rcases abs_le.mp hmag with ⟨hm1, hm2⟩
  refine ⟨?_, ?_, ?_⟩
  · intro hnf
    rw [update_seek_result s delta clip_duration hf hnf]
    dsimp only
    by_cases hge : clip_duration ≤ s.seek_time + delta * s.speed
    · rw [if_pos hge, rustRem_sub _ _ hd hge (by linarith)]
      rw [if_neg (by linarith)]
      constructor <;> linarith
    · rw [if_neg hge]
      push_neg at hge
      by_cases hneg : s.seek_time + delta * s.speed < 0
      · rw [if_pos hneg]
        constructor <;> linarith
      · rw [if_neg hneg]
        push_neg at hneg
        constructor <;> linarith
  · intro hsp hdp hstnn
    have hpass : ¬ passCondition s delta clip_duration := by
      rintro (⟨hsp2, _⟩ | ⟨_, hst2⟩)
      · linarith
      · linarith
    have hcomp := update_completions_char s delta clip_duration hf
    rw [if_neg hpass] at hcomp
    have hnf : (s.update delta clip_duration).is_finished = false := by
      rw [is_finished_congr s _ (update_repeatMode s delta clip_duration) hcomp]
      exact hf
    rw [update_seek_result s delta clip_duration hf hnf]
    dsimp only
    have hlt : delta * s.speed < 0 := mul_neg_of_pos_of_neg hdp hsp
    rw [if_neg (show ¬ clip_duration ≤ s.seek_time + delta * s.speed by linarith)]
    rw [if_neg (show ¬ s.seek_time + delta * s.speed < 0 by linarith)]
    linarith
  · intro hsp hst
    have hpass : passCondition s delta clip_duration := Or.inr ⟨hsp, hst⟩
    have hcomp := update_completions_char s delta clip_duration hf
    rw [if_pos hpass, Nat.mod_eq_of_lt hover] at hcomp
    refine ⟨hcomp, ?_⟩
    intro hnf
    rw [update_seek_result s delta clip_duration hf hnf]
    dsimp only
    rw [if_neg (show ¬ clip_duration ≤ s.seek_time + delta * s.speed by linarith)]
    rw [if_pos hst]

/-- Witness for C5: reverse playback (`Forever`, speed −1) from seek 1/2
with delta 1 and duration 2 — a full reverse pass on this tick. -/
theorem update_seek_time_invariant_witness :
    reverseSample.is_finished = false
    ∧ 0 ≤ reverseSample.seek_time
    ∧ reverseSample.seek_time < 2
    ∧ |(1 : ℚ) * reverseSample.speed| ≤ 2
    ∧ reverseSample.completions + 1 < 4294967296
    ∧ (reverseSample.speed < 0 → reverseSample.seek_time + 1 * reverseSample.speed < 0 →
        (reverseSample.update 1 2).completions = reverseSample.completions + 1
          ∧ ((reverseSample.update 1 2).is_finished = false →
              (reverseSample.update 1 2).seek_time
                = reverseSample.seek_time + 1 * reverseSample.speed + 2)) :=
  ⟨rfl, by with_unfolding_all decide, by with_unfolding_all decide,
    by with_unfolding_all decide, by decide,
    (update_seek_time_invariant reverseSample 1 2 rfl
      (by with_unfolding_all decide) (by with_unfolding_all decide)
      (by with_unfolding_all decide) (by decide)).2.2⟩

/-- C6: after `start(clipA)` then `start_with_transition(clipB, 1 s)`,
the active slot holds a fresh state bound to clip B and the transition
list is exactly the old clip-A state at weight 1.0 with decline rate
1.0/s (and in general `start_with_transition` appends the old state,
preserving existing transitions); after 0.5 s of unpaused advance the
transition's weight is 0.5, and after 1.0 s total it has been removed. -/
theorem start_with_transition_scenario :
    playerAB.animation = { PlayingAnimation.defaultValue with animation_clip := 2 }
    ∧ playerAB.transitions =
        [{ current_weight := 1, weight_decline_per_sec := 1, animation := playerA.animation }]
    ∧ playerA.animation.animation_clip = 1
    ∧ (∀ (p : AnimationPlayer) (handle : Nat) (dur : ℚ),
        (p.start_with_transition handle dur).transitions
          = p.transitions ++
            [{ current_weight := 1, weight_decline_per_sec := 1 / dur,
               animation := p.animation }])
    ∧ playerABhalf.transitions.map (fun t => t.current_weight) = [1/2]
    ∧ playerABfull.transitions = [] :=
  ⟨rfl, by with_unfolding_all decide, rfl, fun p handle dur => rfl,
    by with_unfolding_all decide, by with_unfolding_all decide⟩

/-- C7: with `RepeatAnimation::Never`, once a full pass has been counted
the animation reports finished and `update` leaves the whole state —
`elapsed`, `seek_time` and `completions` included — unchanged. -/
theorem never_repeat_frozen_after_first_pass (s : PlayingAnimation)
    (delta clip_duration : ℚ)
    (hrep : s.repeatMode = RepeatAnimation.Never) (hc : 1 ≤ s.completions) :
    s.is_finished = true ∧ s.update delta clip_duration = s := by
  have hfin : s.is_finished = true := by
    unfold PlayingAnimation.is_finished
    rw [hrep]
    simp [hc]
  exact ⟨hfin, update_finished_frozen s delta clip_duration hfin⟩

/-- Witness for C7 on a `Never` state with one completion. -/
theorem never_repeat_frozen_after_first_pass_witness :
    neverSample.repeatMode = RepeatAnimation.Never
    ∧ 1 ≤ neverSample.completions
    ∧ neverSample.is_finished = true
    ∧ neverSample.update 1 2 = neverSample :=
  ⟨rfl, by decide,
    (never_repeat_frozen_after_first_pass neverSample 1 2 rfl (by decide)).1,
    (never_repeat_frozen_after_first_pass neverSample 1 2 rfl (by decide)).2⟩

/-- C10: a playing animation created with `Count(0)` is finished from
creation — `is_finished` already true at zero completions — and every
`update` call, the first tick included, leaves the state unchanged. -/
theorem count_zero_finished_from_creation :
    countZeroAnimation.is_finished = true
    ∧ countZeroAnimation.completions = 0
    ∧ ∀ (delta clip_duration : ℚ),
        countZeroAnimation.update delta clip_duration = countZeroAnimation :=
  ⟨rfl, rfl, fun delta clip_duration =>
    update_finished_frozen countZeroAnimation delta clip_duration rfl⟩

/-- C1: the claim says that after a single-keyframe curve is applied, or
after a curve whose `find_current_keyframe` lookup returns `None` is
skipped, the remaining curves of the target's list are still evaluated.
The source instead executes `return` in both branches, ending `apply`
for the whole curve list.  Evaluated here at two failing inputs, for
every quaternion-operation instantiation: with curve list
`[singleKeyframeCurve, scaleCurve]` the result is exactly the effect of
the first curve alone — the scale stays at its initial `(1,1,1)` instead
of picking up the scale curve's value — and with curve list
`[lateCurve, scaleCurve]` (first lookup `None` at seek 0) the context
comes back entirely unchanged. -/
theorem apply_early_return_bug (ops : QuatOps) :
    PlayingAnimation.apply ops demoStore demoAnimation 1 demoContext
      = apply_single_keyframe ops singleKeyframeCurve 1 demoContext
    ∧ (PlayingAnimation.apply ops demoStore demoAnimation 1 demoContext).transform
      = some { rotation := ⟨0, 0, 0, 1⟩, translation := ⟨2, 3, 4⟩, scale := ⟨1, 1, 1⟩ }
    ∧ PlayingAnimation.apply ops demoStore demoAnimation2 1 demoContext = demoContext :=
  ⟨rfl, by with_unfolding_all rfl, by with_unfolding_all rfl⟩

set_option maxRecDepth 10000 in
/-- C8: `AnimationTargetId` derivation is deterministic — equal name
sequences give the identical id, since the derivation is a pure function
of the name bytes — and the ids of the paths `["Hips","Chest"]`,
`["Chest","Hips"]` and `["Chest"]` are pairwise distinct, computed here
through the full SHA-1/UUID pipeline. -/
theorem target_id_deterministic_and_order_sensitive :
    (∀ ns1 ns2 : List (List Nat), ns1 = ns2 →
        AnimationTargetId.from_names ns1 = AnimationTargetId.from_names ns2)
    ∧ AnimationTargetId.from_names [hipsBytes, chestBytes]
        ≠ AnimationTargetId.from_names [chestBytes, hipsBytes]
    ∧ AnimationTargetId.from_names [hipsBytes, chestBytes]
        ≠ AnimationTargetId.from_names [chestBytes]
    ∧ AnimationTargetId.from_names [chestBytes, hipsBytes]
        ≠ AnimationTargetId.from_names [chestBytes] := by
  refine ⟨fun ns1 ns2 h => by rw [h], ?_, ?_, ?_⟩ <;> decide

/-- Witness for C8: determinism applied at the concrete path `["Hips"]`. -/
theorem target_id_deterministic_and_order_sensitive_witness :
    [hipsBytes] = [hipsBytes]
    ∧ AnimationTargetId.from_names [hipsBytes] = AnimationTargetId.from_names [hipsBytes] :=
  ⟨rfl, target_id_deterministic_and_order_sensitive.1 [hipsBytes] [hipsBytes] rfl⟩

/-- C9: `from_names` streams the name bytes into the digest with no
separator, so any two name sequences with the same concatenation hash to
the same id: `["AB","C"]`, `["A","BC"]` and `["ABC"]` all collide. -/
theorem target_id_concatenation_collision :
    (∀ ns1 ns2 : List (List Nat), ns1.flatten = ns2.flatten →
        AnimationTargetId.from_names ns1 = AnimationTargetId.from_names ns2)
    ∧ AnimationTargetId.from_names [[65, 66], [67]]
        = AnimationTargetId.from_names [[65], [66, 67]]
    ∧ AnimationTargetId.from_names [[65, 66], [67]]
        = AnimationTargetId.from_names [[65, 66, 67]] := by
  have hmain : ∀ ns1 ns2 : List (List Nat), ns1.flatten = ns2.flatten →
      AnimationTargetId.from_names ns1 = AnimationTargetId.from_names ns2 := by
    intro ns1 ns2 h
    unfold AnimationTargetId.from_names
    rw [h]
  exact ⟨hmain, hmain _ _ rfl, hmain _ _ rfl⟩

/-- Witness for C9: the collision hypothesis discharged at
`["AB","C"]` versus `["A","BC"]`. -/
theorem target_id_concatenation_collision_witness :
    ([[65, 66], [67]] : List (List Nat)).flatten = ([[65], [66, 67]] : List (List Nat)).flatten
    ∧ AnimationTargetId.from_names [[65, 66], [67]]
        = AnimationTargetId.from_names [[65], [66, 67]] :=
  ⟨rfl, target_id_concatenation_collision.1 [[65, 66], [67]] [[65], [66, 67]] rfl⟩
